import Mathlib

/-!
# Verification of PixiParticles spawn geometry and math utilities

Shallow embedding of `src/src/ParticleUtils.js` and the polygonal-chain
spawn strategy (`SpawnPolygonStrategy`), with theorems settling the
specification claims about them.

JavaScript numbers are modelled as exact rationals (`ℚ`) wherever the
operations involved are exact on the inputs the claims mention; the trig
functions `Math.sin` / `Math.cos` and the constant `Math.PI/180` are host
primitives and are taken as parameters; `Math.sqrt` likewise.  For the
`normalize` claim, which is about `Infinity`/`NaN` propagation, numbers are
modelled by `JsNum`, rationals extended with the IEEE special values.
-/

/-- A mutable 2D point (PIXI.Point), modelled as an immutable pair that the
embedded functions thread through explicitly. -/
structure JsPoint where
  x : ℚ
  y : ℚ
deriving DecidableEq, Repr

namespace ParticleUtils

/-- `ParticleUtils.rotatePoint(angle, p)` from ParticleUtils.js lines 36-46.
The JS guard `if(!angle) return;` short-circuits on a zero angle before the
degree-to-radian conversion and the trig calls.  `DEG_TO_RADS` (the host's
`Math.PI/180` double) and `Math.sin`/`Math.cos` are host values, passed as
the parameters `DEG_TO_RADS`, `sin`, `cos`. -/
def rotatePoint (DEG_TO_RADS : ℚ) (sin cos : ℚ → ℚ) (angle : ℚ) (p : JsPoint) : JsPoint :=
  if angle = 0 then p
  else
    let a := angle * DEG_TO_RADS
    let s := sin a
    let c := cos a
    { x := p.x * c - p.y * s, y := p.x * s + p.y * c }

/-- JS `ToInt32`: reduce an integer to the range `[-2^31, 2^31)` modulo `2^32`.
Applied by the JS `<<` and `|` operators to their operands and results. -/
def jsToInt32 (n : ℤ) : ℤ :=
  (n + 2 ^ 31) % 2 ^ 32 - 2 ^ 31

/-- The JS left-shift `a << k` for a literal shift count `k < 32`:
both the operand and the 32-bit result go through `ToInt32`. -/
def jsShl (a : ℤ) (k : ℕ) : ℤ :=
  jsToInt32 (jsToInt32 a * 2 ^ k)

/-- The JS bitwise-or `a | b`: operands through `ToInt32`, two's-complement
or, result reduced to int32. -/
def jsOr32 (a b : ℤ) : ℤ :=
  jsToInt32 (Int.lor (jsToInt32 a) (jsToInt32 b))

/-- `ParticleUtils.combineRGBComponents(r, g, b)` from ParticleUtils.js
lines 57-60: `return r << 16 | g << 8 | b;` with JS int32 operator
semantics. -/
def combineRGBComponents (r g b : ℤ) : ℤ :=
  jsOr32 (jsOr32 (jsShl r 16) (jsShl g 8)) b

end ParticleUtils

/-- A JS double for the purposes of `normalize`: an exact rational or one of
the IEEE special values.  Signed zero is collapsed to `finite 0`; none of the
inputs the claims mention can tell the difference. -/
inductive JsNum where
  | finite (q : ℚ)
  | posInf
  | negInf
  | nan
deriving DecidableEq, Repr

namespace JsNum

/-- Whether a `JsNum` is an ordinary (finite) number. -/
def isFinite : JsNum → Bool
  | finite _ => true
  | _ => false

/-- IEEE addition on `JsNum` (exact on finite operands). -/
def add : JsNum → JsNum → JsNum
  | nan, _ => nan
  | _, nan => nan
  | finite a, finite b => finite (a + b)
  | finite _, posInf => posInf
  | finite _, negInf => negInf
  | posInf, finite _ => posInf
  | negInf, finite _ => negInf
  | posInf, posInf => posInf
  | negInf, negInf => negInf
  | posInf, negInf => nan
  | negInf, posInf => nan

/-- IEEE multiplication on `JsNum` (exact on finite operands);
`0 * ±Infinity = NaN`. -/
def mul : JsNum → JsNum → JsNum
  | nan, _ => nan
  | _, nan => nan
  | finite a, finite b => finite (a * b)
  | finite a, posInf => if a = 0 then nan else if 0 < a then posInf else negInf
  | finite a, negInf => if a = 0 then nan else if 0 < a then negInf else posInf
  | posInf, finite a => if a = 0 then nan else if 0 < a then posInf else negInf
  | negInf, finite a => if a = 0 then nan else if 0 < a then negInf else posInf
  | posInf, posInf => posInf
  | posInf, negInf => negInf
  | negInf, posInf => negInf
  | negInf, negInf => posInf

/-- IEEE division on `JsNum` (exact on finite operands); `x/0` is a signed
infinity for `x ≠ 0` and NaN for `x = 0`; `±Infinity/±Infinity = NaN`.
Zero is unsigned in this model, so `b = 0` behaves as IEEE `+0`. -/
def div : JsNum → JsNum → JsNum
  | nan, _ => nan
  | _, nan => nan
  | finite a, finite b =>
    if b = 0 then (if a = 0 then nan else if 0 < a then posInf else negInf)
    else finite (a / b)
  | finite _, posInf => finite 0
  | finite _, negInf => finite 0
  | posInf, finite b => if 0 ≤ b then posInf else negInf
  | negInf, finite b => if 0 ≤ b then negInf else posInf
  | posInf, posInf => nan
  | posInf, negInf => nan
  | negInf, posInf => nan
  | negInf, negInf => nan

end JsNum

/-- A PIXI.Point whose coordinates may hold IEEE special values. -/
structure JsNumPoint where
  x : JsNum
  y : JsNum
deriving DecidableEq, Repr

namespace ParticleUtils

/-- `ParticleUtils.length(point)` from ParticleUtils.js lines 95-98:
`Math.sqrt(point.x * point.x + point.y * point.y)`.  `Math.sqrt` is a host
primitive, passed as the parameter `sqrt`. -/
def length (sqrt : JsNum → JsNum) (point : JsNumPoint) : JsNum :=
  sqrt (JsNum.add (JsNum.mul point.x point.x) (JsNum.mul point.y point.y))

/-- `ParticleUtils.normalize(point)` from ParticleUtils.js lines 68-73:
`oneOverLen = 1 / length(point); point.x *= oneOverLen; point.y *= oneOverLen`.
No zero-length guard is present in the source. -/
def normalize (sqrt : JsNum → JsNum) (point : JsNumPoint) : JsNumPoint :=
  let oneOverLen := JsNum.div (JsNum.finite 1) (length sqrt point)
  { x := JsNum.mul point.x oneOverLen, y := JsNum.mul point.y oneOverLen }

end ParticleUtils

/-- The value of a single hexadecimal digit character, `none` when the
character is not a hex digit. -/
def hexDigitVal (c : Char) : Option ℕ :=
  if '0' ≤ c ∧ c ≤ '9' then some (c.toNat - 48)
  else if 'a' ≤ c ∧ c ≤ 'f' then some (c.toNat - 87)
  else if 'A' ≤ c ∧ c ≤ 'F' then some (c.toNat - 55)
  else none

/-- Accumulate further hex digits onto `acc`, stopping (as JS `parseInt`
does) at the first non-digit. -/
def hexAccum (acc : ℕ) : List Char → ℕ
  | [] => acc
  | c :: rest =>
    match hexDigitVal c with
    | none => acc
    | some d => hexAccum (acc * 16 + d) rest

/-- JS `parseInt(s, 16)` restricted to the strings `hexToRGB` feeds it
(no leading whitespace, sign, or `0x` prefix): parse the longest leading run
of hex digits; `none` models the `NaN` result when there is no leading
digit. -/
def jsParseInt16 : List Char → Option ℕ
  | [] => none
  | c :: rest =>
    match hexDigitVal c with
    | none => none
    | some d => some (hexAccum d rest)

namespace ParticleUtils

/-- `ParticleUtils.hexToRGB(color)` from ParticleUtils.js lines 110-132, on
the character list of the input string.  Strips a leading `#` (charAt) or
else a leading `0x` (indexOf === 0); when 8 hex characters remain the first
two are the alpha channel; pushes red, green, blue and then, if present,
alpha.  Channels are `Option ℕ`, `none` standing for JS `NaN` from a
malformed digit pair.  The optional reusable output-array argument only
affects allocation and is not modelled. -/
def hexToRGBChars (color : List Char) : List (Option ℕ) :=
  let color :=
    if color.head? = some '#' then color.drop 1
    else if color.take 2 = ['0', 'x'] then color.drop 2
    else color
  let alphaAndColor : Option (List Char) × List Char :=
    if color.length = 8 then (some (color.take 2), color.drop 2) else (none, color)
  let alpha := alphaAndColor.1
  let color := alphaAndColor.2
  let rgb := [jsParseInt16 (color.take 2), jsParseInt16 ((color.drop 2).take 2),
    jsParseInt16 ((color.drop 4).take 2)]
  match alpha with
  | some a => rgb ++ [jsParseInt16 a]
  | none => rgb

/-- `ParticleUtils.hexToRGB` on a Lean `String`. -/
def hexToRGB (color : String) : List (Option ℕ) :=
  hexToRGBChars color.data

end ParticleUtils

/-- One ease segment `{s, cp, e}` as produced by the GreenSock custom-ease
tool (start value, control value, end value). -/
structure EaseSegment where
  s : ℚ
  cp : ℚ
  e : ℚ
deriving DecidableEq, Repr

/-- The JS `x | 0` "quick floor" (truncation toward zero) on the values the
ease closure produces; the int32 wrap of `|0` cannot fire for any
`time`/`qty` the claims range over. -/
def jsTrunc (x : ℚ) : ℤ :=
  if 0 ≤ x then ⌊x⌋ else ⌈x⌉

/-- JS array indexing `segments[i]`: `undefined` (i.e. `none`) outside
`[0, length)`. -/
def jsIndex (l : List EaseSegment) (i : ℤ) : Option EaseSegment :=
  if h : 0 ≤ i ∧ i.toNat < l.length then some (l.get ⟨i.toNat, h.2⟩) else none

namespace ParticleUtils

/-- The segment lookup `s = segments[i] || segments[qty - 1]` of `simpleEase`
(ParticleUtils.js line 159), with `i = (qty * time) | 0` from line 157:
an in-bounds index selects that segment, any out-of-bounds index falls back
to the last. -/
def easeSelect (segments : List EaseSegment) (time : ℚ) : Option EaseSegment :=
  let qty : ℤ := segments.length
  let i := jsTrunc ((qty : ℚ) * time)
  match jsIndex segments i with
  | some sg => some sg
  | none => jsIndex segments (qty - 1)

/-- The closure `simpleEase(time)` built by `ParticleUtils.generateEase`
(ParticleUtils.js lines 144-163): `i = (qty*time)|0`,
`t = (time - i*oneOverQty)*qty`, `s = segments[i] || segments[qty-1]`,
returning `s.s + t*(2*(1-t)*(s.cp - s.s) + t*(s.e - s.s))`.  The result is
`none` when `s` is `undefined` (empty segment list), where the JS closure
would throw. -/
def simpleEase (segments : List EaseSegment) (time : ℚ) : Option ℚ :=
  let qty : ℤ := segments.length
  let oneOverQty : ℚ := 1 / (qty : ℚ)
  let i := jsTrunc ((qty : ℚ) * time)
  let t := (time - (i : ℚ) * oneOverQty) * (qty : ℚ)
  match easeSelect segments time with
  | none => none
  | some sg => some (sg.s + t * (2 * (1 - t) * (sg.cp - sg.s) + t * (sg.e - sg.s)))

/-- `ParticleUtils.generateEase(segments)` returns the `simpleEase`
closure. -/
def generateEase (segments : List EaseSegment) : ℚ → Option ℚ :=
  simpleEase segments

end ParticleUtils

/-- JS `String.prototype.toUpperCase` on the ASCII names the claims use,
on the string's character list. -/
def jsToUpperCase (s : List Char) : List Char :=
  s.map Char.toUpper

/-- The loop `while (name.indexOf(" ") >= 0) name = name.replace(" ", "_");`
(ParticleUtils.js lines 176-177): replacing the first space repeatedly until
none is left replaces every space with an underscore. -/
def spacesToUnderscores (s : List Char) : List Char :=
  s.map fun c => if c = ' ' then '_' else c

/-- JS `a || b` on a possibly-undefined enumeration value `a`: `undefined`
and the number `0` are falsy and fall through to `b`. -/
def jsOrEnum (a b : Option ℤ) : Option ℤ :=
  match a with
  | some v => if v = 0 then b else some v
  | none => b

namespace ParticleUtils

/-- `ParticleUtils.getBlendMode(name)` from ParticleUtils.js lines 172-179.
`BLEND_MODES` is the host engine's enumeration (`PIXI.BLEND_MODES`), modelled
as the lookup parameter `modes : List Char → Option ℤ` on property names
(`none` = no such property).  `name` is an `Option` of a character list,
`none` standing for `undefined`; the guard `!name` is true exactly on
`undefined` and the empty string. -/
def getBlendMode (modes : List Char → Option ℤ) (name : Option (List Char)) : Option ℤ :=
  match name with
  | none => modes "NORMAL".data
  | some n =>
    if n = [] then modes "NORMAL".data
    else
      let n := spacesToUnderscores (jsToUpperCase n)
      jsOrEnum (modes n) (modes "NORMAL".data)

end ParticleUtils

/-- The fields of the `Emitter` the polygonal-chain strategy reads
(`src/unnamed/part_000`): rotation bounds, overall rotation and position,
the spawn-type tag and the stored chain.  The chain's representation is
opaque here (type parameter `α`); its `getRandomPoint` sample enters the
spawn model as an input. -/
structure EmitterState (α : Type) where
  position : JsPoint
  rotation : ℚ
  minStartRotation : ℚ
  maxStartRotation : ℚ
  spawnType : String
  spawnPolygonalChain : α
deriving DecidableEq, Repr

/-- The mutable state a `SpawnPolygonStrategy.spawn` call can see: the
particle's rotation and position, the emitter it back-references, and the
module-level scratch point `Temp.point`. -/
structure SpawnState (α : Type) where
  emitter : EmitterState α
  particleRotation : ℚ
  particlePosition : JsPoint
  tempPoint : JsPoint
deriving DecidableEq, Repr

namespace SpawnPolygonStrategy

/-- `SpawnPolygonStrategy.spawn(p, emitPosX, emitPosY)` from
`src/unnamed/part_000` lines 25-42.  `Math.random()` is the input `rand`;
`emitter.spawnPolygonalChain.getRandomPoint(Temp.point)` (chain code outside
this file) overwrites `Temp.point` with a chain sample, supplied as the
input `chainPoint`.  `rotatePoint` needs the host trig values `DEG_TO_RADS`,
`sin`, `cos`.  The unused wave-index argument `i` is omitted. -/
def spawn (DEG_TO_RADS : ℚ) (sin cos : ℚ → ℚ) (rand : ℚ) (chainPoint : JsPoint)
    (emitPosX emitPosY : ℚ) (st : SpawnState α) : SpawnState α :=
  let emitter := st.emitter
  let rot : ℚ :=
    if emitter.minStartRotation = emitter.maxStartRotation then
      emitter.minStartRotation + emitter.rotation
    else
      rand * (emitter.maxStartRotation - emitter.minStartRotation) +
        emitter.minStartRotation + emitter.rotation
  let tp := chainPoint
  let tp :=
    if emitter.rotation ≠ 0 then
      ParticleUtils.rotatePoint DEG_TO_RADS sin cos emitter.rotation tp
    else tp
  { st with
    particleRotation := rot
    particlePosition := { x := emitPosX + tp.x, y := emitPosY + tp.y }
    tempPoint := tp }

end SpawnPolygonStrategy

/-- A concrete spawn state: fixed-angle bounds of 45 degrees, zero emitter
rotation, chain representation `Unit`. -/
def sampleSpawnState : SpawnState Unit :=
  { emitter :=
      { position := ⟨0, 0⟩
        rotation := 0
        minStartRotation := 45
        maxStartRotation := 45
        spawnType := "polygonalChain"
        spawnPolygonalChain := () }
    particleRotation := 0
    particlePosition := ⟨0, 0⟩
    tempPoint := ⟨0, 0⟩ }

/-- A PIXI-like blend mode enumeration with the standard first entries,
used to instantiate the `getBlendMode` theorem. -/
def sampleBlendModes : List Char → Option ℤ := fun s =>
  if s = "NORMAL".data then some 0
  else if s = "ADD".data then some 1
  else if s = "MULTIPLY".data then some 2
  else if s = "SCREEN".data then some 3
  else none

/-! ## Helper lemmas -/

lemma jsToInt32_eq_self {n : ℤ} (h0 : 0 ≤ n) (h1 : n < 2 ^ 31) :
    ParticleUtils.jsToInt32 n = n := by
  unfold ParticleUtils.jsToInt32
  omega

lemma int_lor_natCast (m n : ℕ) :
    Int.lor (↑m) (↑n) = ((↑(m ||| n)) : ℤ) := rfl

lemma jsOr32_natCast {m n : ℕ} (hm : m < 2 ^ 31) (hn : n < 2 ^ 31) :
    ParticleUtils.jsOr32 (↑m) (↑n) = ((↑(m ||| n)) : ℤ) := by
  unfold ParticleUtils.jsOr32
  have hm' : (↑m : ℤ) < 2 ^ 31 := by exact_mod_cast hm
  have hn' : (↑n : ℤ) < 2 ^ 31 := by exact_mod_cast hn
  rw [jsToInt32_eq_self (by positivity) hm', jsToInt32_eq_self (by positivity) hn',
    int_lor_natCast]
  have : m ||| n < 2 ^ 31 := Nat.or_lt_two_pow hm hn
  exact jsToInt32_eq_self (by positivity) (by exact_mod_cast this)

lemma jsShl_natCast {m : ℕ} (k : ℕ) (h : m * 2 ^ k < 2 ^ 31) :
    ParticleUtils.jsShl (↑m) k = ((↑(m <<< k)) : ℤ) := by
  unfold ParticleUtils.jsShl
  have hm : (↑m : ℤ) < 2 ^ 31 := by
    have : m < 2 ^ 31 := lt_of_le_of_lt (Nat.le_mul_of_pos_right m (Nat.two_pow_pos k)) h
    exact_mod_cast this
  rw [jsToInt32_eq_self (by positivity) hm, Nat.shiftLeft_eq]
  have h' : (↑m : ℤ) * 2 ^ k < 2 ^ 31 := by exact_mod_cast h
  rw [jsToInt32_eq_self (by positivity) h']
  push_cast
  ring

/-! ## Claim theorems -/

/-- C7: for all integer channel values `r`, `g`, `b` in `[0, 255]`,
`combineRGBComponents(r, g, b)` (with its JS int32 operator semantics)
returns exactly `(r<<16) | (g<<8) | b`; in particular
`combineRGBComponents(255, 128, 64) == 0xFF8040`. -/
theorem combineRGBComponents_spec (r g b : ℕ) (hr : r ≤ 255) (hg : g ≤ 255) (hb : b ≤ 255) :
    ParticleUtils.combineRGBComponents (↑r) (↑g) (↑b) =
      ((↑(r <<< 16 ||| g <<< 8 ||| b)) : ℤ) ∧
    ParticleUtils.combineRGBComponents 255 128 64 = 0xFF8040 := by
  constructor
  · have hr16 : r <<< 16 < 2 ^ 31 := by rw [Nat.shiftLeft_eq]; omega
    have hg8 : g <<< 8 < 2 ^ 31 := by rw [Nat.shiftLeft_eq]; omega
    have hor : r <<< 16 ||| g <<< 8 < 2 ^ 31 := Nat.or_lt_two_pow hr16 hg8
    have hb31 : b < 2 ^ 31 := by omega
    unfold ParticleUtils.combineRGBComponents
    rw [jsShl_natCast 16 (by rw [Nat.shiftLeft_eq] at hr16; exact hr16),
      jsShl_natCast 8 (by rw [Nat.shiftLeft_eq] at hg8; exact hg8),
      jsOr32_natCast hr16 hg8, jsOr32_natCast hor hb31]
  · decide

/-- C7 witness: the concrete instance `r = 255`, `g = 128`, `b = 64`. -/
theorem combineRGBComponents_spec_witness :
    ParticleUtils.combineRGBComponents 255 128 64 = ((255 <<< 16 ||| 128 <<< 8 ||| 64 : ℕ) : ℤ) :=
  (combineRGBComponents_spec 255 128 64 (by decide) (by decide) (by decide)).1

/-- C8: for every point `p` (and any host trig functions and
degree-to-radian constant), `rotatePoint(0, p)` is exactly a no-op: the
`if(!angle) return;` short-circuit fires before any trigonometric
computation, so the result does not depend on `sin`/`cos` at all. -/
theorem rotatePoint_zero_noop (DEG_TO_RADS : ℚ) (sin cos : ℚ → ℚ) (p : JsPoint) :
    ParticleUtils.rotatePoint DEG_TO_RADS sin cos 0 p = p := by
  simp [ParticleUtils.rotatePoint]

/-- C10: a polygonal-chain `spawn` call writes only the particle's rotation,
the particle's position and the shared scratch point; the emitter — all of
its fields: position, rotation, minStartRotation, maxStartRotation,
spawnType, spawnPolygonalChain — is left unchanged. -/
theorem spawn_frame {α : Type} (DEG_TO_RADS : ℚ) (sin cos : ℚ → ℚ) (rand : ℚ)
    (chainPoint : JsPoint) (emitPosX emitPosY : ℚ) (st : SpawnState α) :
    (SpawnPolygonStrategy.spawn DEG_TO_RADS sin cos rand chainPoint emitPosX emitPosY
        st).emitter = st.emitter ∧
    (SpawnPolygonStrategy.spawn DEG_TO_RADS sin cos rand chainPoint emitPosX emitPosY
        st).emitter.position = st.emitter.position ∧
    (SpawnPolygonStrategy.spawn DEG_TO_RADS sin cos rand chainPoint emitPosX emitPosY
        st).emitter.rotation = st.emitter.rotation ∧
    (SpawnPolygonStrategy.spawn DEG_TO_RADS sin cos rand chainPoint emitPosX emitPosY
        st).emitter.minStartRotation = st.emitter.minStartRotation ∧
    (SpawnPolygonStrategy.spawn DEG_TO_RADS sin cos rand chainPoint emitPosX emitPosY
        st).emitter.maxStartRotation = st.emitter.maxStartRotation ∧
    (SpawnPolygonStrategy.spawn DEG_TO_RADS sin cos rand chainPoint emitPosX emitPosY
        st).emitter.spawnType = st.emitter.spawnType ∧
    (SpawnPolygonStrategy.spawn DEG_TO_RADS sin cos rand chainPoint emitPosX emitPosY
        st).emitter.spawnPolygonalChain = st.emitter.spawnPolygonalChain :=
  ⟨rfl, rfl, rfl, rfl, rfl, rfl, rfl⟩

/-- C3: the particle's final position after a polygonal-chain `spawn` is the
emission origin `(emitPosX, emitPosY)` plus the chain's sampled local point,
that local point being rotated via `rotatePoint` by the emitter's rotation
when and only when that rotation is non-zero. -/
theorem spawn_position_spec {α : Type} (DEG_TO_RADS : ℚ) (sin cos : ℚ → ℚ) (rand : ℚ)
    (chainPoint : JsPoint) (emitPosX emitPosY : ℚ) (st : SpawnState α) :
    (SpawnPolygonStrategy.spawn DEG_TO_RADS sin cos rand chainPoint emitPosX emitPosY
        st).particlePosition =
      { x := emitPosX + (if st.emitter.rotation ≠ 0 then
            ParticleUtils.rotatePoint DEG_TO_RADS sin cos st.emitter.rotation chainPoint
          else chainPoint).x,
        y := emitPosY + (if st.emitter.rotation ≠ 0 then
            ParticleUtils.rotatePoint DEG_TO_RADS sin cos st.emitter.rotation chainPoint
          else chainPoint).y } := rfl

/-- C2: the particle's rotation after a polygonal-chain `spawn`: exactly
`minStartRotation + emitter.rotation` when the two bounds are equal (exact
equality, no epsilon); otherwise `emitter.rotation` plus a value that, for
`rand ∈ [0,1]` and ordered bounds, lies in
`[minStartRotation, maxStartRotation]`; in particular bounds of `45` and an
emitter rotation of `0` give exactly `45`. -/
theorem spawn_rotation_spec {α : Type} (DEG_TO_RADS : ℚ) (sin cos : ℚ → ℚ) (rand : ℚ)
    (chainPoint : JsPoint) (emitPosX emitPosY : ℚ) (st : SpawnState α) :
    ((st.emitter.minStartRotation = st.emitter.maxStartRotation →
      (SpawnPolygonStrategy.spawn DEG_TO_RADS sin cos rand chainPoint emitPosX emitPosY
          st).particleRotation = st.emitter.minStartRotation + st.emitter.rotation) ∧
     (st.emitter.minStartRotation ≠ st.emitter.maxStartRotation →
      (SpawnPolygonStrategy.spawn DEG_TO_RADS sin cos rand chainPoint emitPosX emitPosY
          st).particleRotation =
        st.emitter.rotation + (st.emitter.minStartRotation +
          rand * (st.emitter.maxStartRotation - st.emitter.minStartRotation)))) ∧
    (0 ≤ rand → rand ≤ 1 →
      st.emitter.minStartRotation ≤ st.emitter.maxStartRotation →
      st.emitter.minStartRotation ≤
          st.emitter.minStartRotation +
            rand * (st.emitter.maxStartRotation - st.emitter.minStartRotation) ∧
        st.emitter.minStartRotation +
            rand * (st.emitter.maxStartRotation - st.emitter.minStartRotation) ≤
          st.emitter.maxStartRotation) ∧
    (st.emitter.minStartRotation = 45 → st.emitter.maxStartRotation = 45 →
      st.emitter.rotation = 0 →
      (SpawnPolygonStrategy.spawn DEG_TO_RADS sin cos rand chainPoint emitPosX emitPosY
          st).particleRotation = 45) := by
  refine ⟨⟨fun h => ?_, fun h => ?_⟩, fun h0 h1 hle => ⟨?_, ?_⟩, fun h1 h2 h3 => ?_⟩
  · simp [SpawnPolygonStrategy.spawn, h]
  · simp [SpawnPolygonStrategy.spawn, h]
    ring
  · nlinarith
  · nlinarith
  · simp [SpawnPolygonStrategy.spawn, h1, h2, h3]

/-- C2 witness: with both bounds `45` and emitter rotation `0`, a concrete
spawn (any trig host values, any random draw, any chain sample) gives a
particle rotation of exactly `45`. -/
theorem spawn_rotation_spec_witness :
    (SpawnPolygonStrategy.spawn 0 (fun _ => 0) (fun _ => 0) (1/2) ⟨1, 2⟩ 3 4
        sampleSpawnState).particleRotation = 45 :=
  (spawn_rotation_spec 0 (fun _ => 0) (fun _ => 0) (1/2) ⟨1, 2⟩ 3 4
      sampleSpawnState).2.2 rfl rfl rfl

/-- C1 counterexample: the ease built from the single segment
`{s:0, cp:0.5, e:1}` does NOT return `1` at `time = 1`.  At `time = 1` the
index `i = (qty*time)|0` equals `qty = 1`, the segment lookup falls back to
the last segment, but `t = (time - i*oneOverQty)*qty` evaluates to `0`, so
the closure returns the last segment's start value `0`. -/
theorem generateEase_at_one_ne_one :
    ParticleUtils.generateEase [⟨0, 1/2, 1⟩] 1 ≠ some 1 := by
  norm_num [ParticleUtils.generateEase, ParticleUtils.simpleEase, ParticleUtils.easeSelect,
    jsIndex, jsTrunc]

/-- C1 (amended): for the ease built by `generateEase` from the single
segment `{s:0, cp:0.5, e:1}`, evaluation at `time=0` returns `0`, at
`time=0.5` returns `0.5`, and at `time=1` returns `0` (the last segment's
start value, because the overflowed index leaves the in-segment time `t`
at `0`), not `1`. -/
theorem generateEase_single_segment_values :
    ParticleUtils.generateEase [⟨0, 1/2, 1⟩] 0 = some 0 ∧
    ParticleUtils.generateEase [⟨0, 1/2, 1⟩] (1/2) = some (1/2) ∧
    ParticleUtils.generateEase [⟨0, 1/2, 1⟩] 1 = some 0 := by
  refine ⟨?_, ?_, ?_⟩ <;>
    norm_num [ParticleUtils.generateEase, ParticleUtils.simpleEase, ParticleUtils.easeSelect,
      jsIndex, jsTrunc]

/-- C4: for every non-empty segment list, the ease closure selects the
segment with index `(qty*time)|0`; whenever that index is outside the array
(in particular at `time = 1`, where it equals `qty`), the lookup resolves to
the last segment instead of failing, and evaluation always produces a
value. -/
theorem easeSelect_spec (segments : List EaseSegment) (time : ℚ) (h : segments ≠ []) :
    ((0 ≤ jsTrunc (((segments.length : ℤ) : ℚ) * time) ∧
        (jsTrunc (((segments.length : ℤ) : ℚ) * time)).toNat < segments.length →
      ParticleUtils.easeSelect segments time =
        segments[(jsTrunc (((segments.length : ℤ) : ℚ) * time)).toNat]?) ∧
     (¬(0 ≤ jsTrunc (((segments.length : ℤ) : ℚ) * time) ∧
        (jsTrunc (((segments.length : ℤ) : ℚ) * time)).toNat < segments.length) →
      ParticleUtils.easeSelect segments time = some (segments.getLast h))) ∧
    (0 ≤ time → jsTrunc (((segments.length : ℤ) : ℚ) * time) =
      ⌊((segments.length : ℤ) : ℚ) * time⌋) ∧
    (time = 1 → ParticleUtils.easeSelect segments time = some (segments.getLast h)) ∧
    (ParticleUtils.simpleEase segments time).isSome = true := by
  have hq : 0 < segments.length := List.length_pos.mpr h
  have hin : ∀ hc : 0 ≤ jsTrunc (((segments.length : ℤ) : ℚ) * time) ∧
      (jsTrunc (((segments.length : ℤ) : ℚ) * time)).toNat < segments.length,
      ParticleUtils.easeSelect segments time =
        segments[(jsTrunc (((segments.length : ℤ) : ℚ) * time)).toNat]? := by
    intro hc
    simp only [ParticleUtils.easeSelect, jsIndex]
    rw [dif_pos hc, List.getElem?_eq_getElem hc.2]
    rfl
  have hout : ∀ _ : ¬(0 ≤ jsTrunc (((segments.length : ℤ) : ℚ) * time) ∧
      (jsTrunc (((segments.length : ℤ) : ℚ) * time)).toNat < segments.length),
      ParticleUtils.easeSelect segments time = some (segments.getLast h) := by
    intro hc
    simp only [ParticleUtils.easeSelect, jsIndex]
    rw [dif_neg hc]
    have hlast : 0 ≤ (segments.length : ℤ) - 1 ∧
        ((segments.length : ℤ) - 1).toNat < segments.length := by omega
    have hidx : ((segments.length : ℤ) - 1).toNat = segments.length - 1 := by omega
    rw [dif_pos hlast]
    show some (segments.get ⟨((segments.length : ℤ) - 1).toNat, hlast.2⟩) =
      some (segments.getLast h)
    rw [List.getLast_eq_getElem]
    simp only [List.get_eq_getElem, hidx]
  refine ⟨⟨hin, hout⟩, fun ht => ?_, fun ht => ?_, ?_⟩
  · unfold jsTrunc
    rw [if_pos (mul_nonneg (by positivity) ht)]
  · apply hout
    subst ht
    have : jsTrunc (((segments.length : ℤ) : ℚ) * 1) = (segments.length : ℤ) := by
      unfold jsTrunc
      rw [mul_one, if_pos (by positivity)]
      exact Int.floor_intCast _
    rw [this]
    omega
  · have : ∃ sg, ParticleUtils.easeSelect segments time = some sg := by
      by_cases hc : 0 ≤ jsTrunc (((segments.length : ℤ) : ℚ) * time) ∧
        (jsTrunc (((segments.length : ℤ) : ℚ) * time)).toNat < segments.length
      · exact ⟨_, (hin hc).trans (List.getElem?_eq_getElem hc.2)⟩
      · exact ⟨_, hout hc⟩
    obtain ⟨sg, hsg⟩ := this
    unfold ParticleUtils.simpleEase
    rw [hsg]
    rfl

/-- C4 witness: for the singleton segment list at `time = 1` the index
overflows and the selection resolves to the (only, hence last) segment, and
evaluation produces a value. -/
theorem easeSelect_spec_witness :
    ParticleUtils.easeSelect [⟨0, 1/2, 1⟩] 1 = some ⟨0, 1/2, 1⟩ ∧
    (ParticleUtils.simpleEase [⟨0, 1/2, 1⟩] 1).isSome = true := by
  have h := easeSelect_spec [⟨0, 1/2, 1⟩] 1 (by simp)
  exact ⟨h.2.2.1 rfl, h.2.2.2⟩

/-- C6: `getBlendMode` is case-insensitive and maps spaces to underscores,
so `"Screen"`, `"screen"` and `"SCREEN"` resolve to the same enumerated
value; an `undefined` name, an empty name, and an unrecognized name such as
`"not a mode"` all fall back to the `NORMAL` entry instead of erroring. -/
theorem getBlendMode_spec (modes : List Char → Option ℤ)
    (hmiss : modes "NOT_A_MODE".data = none) :
    (ParticleUtils.getBlendMode modes (some "Screen".data) =
        ParticleUtils.getBlendMode modes (some "screen".data) ∧
      ParticleUtils.getBlendMode modes (some "screen".data) =
        ParticleUtils.getBlendMode modes (some "SCREEN".data)) ∧
    ParticleUtils.getBlendMode modes none = modes "NORMAL".data ∧
    ParticleUtils.getBlendMode modes (some []) = modes "NORMAL".data ∧
    ParticleUtils.getBlendMode modes (some "not a mode".data) = modes "NORMAL".data := by
  have e1 : spacesToUnderscores (jsToUpperCase "Screen".data) = "SCREEN".data := by decide
  have e2 : spacesToUnderscores (jsToUpperCase "screen".data) = "SCREEN".data := by decide
  have e3 : spacesToUnderscores (jsToUpperCase "SCREEN".data) = "SCREEN".data := by decide
  have e4 : spacesToUnderscores (jsToUpperCase "not a mode".data) = "NOT_A_MODE".data := by
    decide
  refine ⟨⟨?_, ?_⟩, rfl, by simp [ParticleUtils.getBlendMode], ?_⟩
  · simp [ParticleUtils.getBlendMode, e1, e2]
  · simp [ParticleUtils.getBlendMode, e2, e3]
  · simp [ParticleUtils.getBlendMode, e4, hmiss, jsOrEnum]

/-- C6 witness: with a PIXI-like enumeration, the unrecognized name
`"not a mode"` resolves to the `NORMAL` entry. -/
theorem getBlendMode_spec_witness :
    ParticleUtils.getBlendMode sampleBlendModes (some "not a mode".data) =
      sampleBlendModes "NORMAL".data :=
  (getBlendMode_spec sampleBlendModes (by decide)).2.2.2

lemma hexDigit_ne_hash {c : Char} (h : (hexDigitVal c).isSome = true) : c ≠ '#' := by
  rintro rfl
  revert h
  decide

lemma hexDigit_ne_x {c : Char} (h : (hexDigitVal c).isSome = true) : c ≠ 'x' := by
  rintro rfl
  revert h
  decide

/-- C5: `hexToRGB` accepts all six textual forms of the same color
(`#AARRGGBB`, `#RRGGBB`, `0xAARRGGBB`, `0xRRGGBB`, `AARRGGBB`, `RRGGBB`) and
yields the same channel values for each; a 6-hex-digit input gives
`[r, g, b]` and an 8-hex-digit input emits its leading alpha channel last,
giving `[r, g, b, a]`.  Concretely, `hexToRGB("#FF8040")` is
`[255, 128, 64]` and `hexToRGB("0x80FF8040")` is `[255, 128, 64, 128]`. -/
theorem hexToRGB_spec (rgb a : List Char)
    (h6 : rgb.length = 6) (hhex : ∀ c ∈ rgb, (hexDigitVal c).isSome = true)
    (h2 : a.length = 2) (hahex : ∀ c ∈ a, (hexDigitVal c).isSome = true) :
    (ParticleUtils.hexToRGBChars ('#' :: rgb) = ParticleUtils.hexToRGBChars rgb ∧
     ParticleUtils.hexToRGBChars ('0' :: 'x' :: rgb) = ParticleUtils.hexToRGBChars rgb ∧
     ParticleUtils.hexToRGBChars ('#' :: (a ++ rgb)) =
       ParticleUtils.hexToRGBChars (a ++ rgb) ∧
     ParticleUtils.hexToRGBChars ('0' :: 'x' :: (a ++ rgb)) =
       ParticleUtils.hexToRGBChars (a ++ rgb) ∧
     ParticleUtils.hexToRGBChars (a ++ rgb) =
       ParticleUtils.hexToRGBChars rgb ++ [jsParseInt16 a]) ∧
    ParticleUtils.hexToRGB "#FF8040" = [some 255, some 128, some 64] ∧
    ParticleUtils.hexToRGB "0x80FF8040" = [some 255, some 128, some 64, some 128] := by
  rcases rgb with _ | ⟨c1, _ | ⟨c2, _ | ⟨c3, _ | ⟨c4, _ | ⟨c5, _ | ⟨c6, _ | ⟨c7, t⟩⟩⟩⟩⟩⟩⟩ <;>
    simp only [List.length] at h6 <;> try omega
  rcases a with _ | ⟨a1, _ | ⟨a2, _ | ⟨a3, u⟩⟩⟩ <;>
    simp only [List.length] at h2 <;> try omega
  have hc1 : c1 ≠ '#' := hexDigit_ne_hash (hhex c1 (by simp))
  have hc2 : c2 ≠ 'x' := hexDigit_ne_x (hhex c2 (by simp))
  have ha1 : a1 ≠ '#' := hexDigit_ne_hash (hahex a1 (by simp))
  have ha2 : a2 ≠ 'x' := hexDigit_ne_x (hahex a2 (by simp))
  refine ⟨⟨?_, ?_, ?_, ?_, ?_⟩, by decide, by decide⟩ <;>
    simp [ParticleUtils.hexToRGBChars, hc1, hc2, ha1, ha2]

/-- C5 witness: the general six-form consistency instantiated at the color
`FF8040` with alpha `80`. -/
theorem hexToRGB_spec_witness :
    ParticleUtils.hexToRGBChars ('#' :: "FF8040".data) =
      ParticleUtils.hexToRGBChars "FF8040".data ∧
    ParticleUtils.hexToRGBChars ("80".data ++ "FF8040".data) =
      ParticleUtils.hexToRGBChars "FF8040".data ++ [jsParseInt16 "80".data] := by
  have h := hexToRGB_spec "FF8040".data "80".data (by decide) (by decide) (by decide)
    (by decide)
  exact ⟨h.1.1, h.1.2.2.2.2⟩

lemma JsNum.mul_one_div_eq_div (x d : JsNum) :
    JsNum.mul x (JsNum.div (JsNum.finite 1) d) = JsNum.div x d := by
  rcases x with q | _ | _ | _ <;> rcases d with r | _ | _ | _ <;>
      simp only [JsNum.mul, JsNum.div] <;>
    try norm_num [JsNum.mul]
  · rcases eq_or_ne r 0 with hr | hr
    · subst hr
      norm_num [JsNum.mul]
    · simp only [if_neg hr, JsNum.mul]
      rw [div_eq_mul_inv]
  · rcases eq_or_ne r 0 with hr | hr
    · subst hr
      norm_num [JsNum.mul]
    · simp only [if_neg hr, JsNum.mul, one_div, inv_eq_zero, inv_pos]
      rcases hr.lt_or_lt with hgt | hlt
      · rw [if_neg (not_lt.mpr hgt.le), if_neg (not_le.mpr hgt)]
      · rw [if_pos hlt, if_pos hlt.le]
  · rcases eq_or_ne r 0 with hr | hr
    · subst hr
      norm_num [JsNum.mul]
    · simp only [if_neg hr, JsNum.mul, one_div, inv_eq_zero, inv_pos]
      rcases hr.lt_or_lt with hgt | hlt
      · rw [if_neg (not_lt.mpr hgt.le), if_neg (not_le.mpr hgt)]
      · rw [if_pos hlt, if_pos hlt.le]

/-- C9: `normalize` has no zero-length guard: it divides both coordinates by
the point's current Euclidean length (the multiplication by `1/length` is
division by the length), and on the zero-length point it yields non-finite
(`NaN`) coordinates rather than raising an error.  The only fact assumed of
the host `Math.sqrt` is `sqrt(0) = 0`. -/
theorem normalize_spec (sqrt : JsNum → JsNum) (h0 : sqrt (JsNum.finite 0) = JsNum.finite 0) :
    (∀ p : JsNumPoint, ParticleUtils.normalize sqrt p =
      { x := JsNum.div p.x (ParticleUtils.length sqrt p),
        y := JsNum.div p.y (ParticleUtils.length sqrt p) }) ∧
    ParticleUtils.normalize sqrt ⟨JsNum.finite 0, JsNum.finite 0⟩ =
      ⟨JsNum.nan, JsNum.nan⟩ ∧
    (ParticleUtils.normalize sqrt ⟨JsNum.finite 0, JsNum.finite 0⟩).x.isFinite = false ∧
    (ParticleUtils.normalize sqrt ⟨JsNum.finite 0, JsNum.finite 0⟩).y.isFinite = false := by
  have hlen : ParticleUtils.length sqrt ⟨JsNum.finite 0, JsNum.finite 0⟩ = JsNum.finite 0 := by
    simp only [ParticleUtils.length, JsNum.mul, JsNum.add]
    norm_num [h0]
  have hzero : ParticleUtils.normalize sqrt ⟨JsNum.finite 0, JsNum.finite 0⟩ =
      ⟨JsNum.nan, JsNum.nan⟩ := by
    simp only [ParticleUtils.normalize, hlen, JsNum.div, JsNum.mul]
    norm_num
  refine ⟨fun p => ?_, hzero, ?_, ?_⟩
  · simp only [ParticleUtils.normalize, JsNum.mul_one_div_eq_div]
  · rw [hzero]
    rfl
  · rw [hzero]
    rfl

/-- C9 witness: with a host square root satisfying `sqrt(0) = 0`, the
zero-length point normalizes to `NaN` coordinates. -/
theorem normalize_spec_witness :
    ParticleUtils.normalize (fun _ => JsNum.finite 0) ⟨JsNum.finite 0, JsNum.finite 0⟩ =
      ⟨JsNum.nan, JsNum.nan⟩ :=
  (normalize_spec (fun _ => JsNum.finite 0) rfl).2.1
